import Mathlib

/-!
Verification of the `solid-tiny-query` cache layer.

This file gives a shallow embedding of the key normalizer
(`src/utils/query-utils.ts`), the cache store (`src/client/index.ts`) and the
query-instance fetch state machine (`src/hooks/create-query.ts`), and proves
or refutes the specified properties against those definitions.
-/

namespace SolidTinyQuery

/-! ### Key normalizer (`src/utils/query-utils.ts`) -/

/-- A scalar query key: `QueryKey = string | number`. -/
inductive QueryKey where
  | str (s : String)
  | num (n : Int)
deriving DecidableEq, Repr

/-- Model of `parseKey(key) { return `${key}` }`: template-string conversion of
a scalar key to its display string. -/
def parseKey : QueryKey → String
  | .str s => s
  | .num n => toString n

/-- One element of the array form of the normalizer's input: either a scalar
(`QueryKey`) or a one-level nested array (`QueryKeys`). -/
inductive QueryKeyArg where
  | scalar (k : QueryKey)
  | arr (ks : List QueryKey)
deriving DecidableEq, Repr

/-- The full input type of `getRealQueryKey`:
`QueryKey | QueryKeys | (QueryKey | QueryKeys)[]`. -/
inductive QueryKeyInput where
  | single (k : QueryKey)
  | list (args : List QueryKeyArg)
deriving DecidableEq, Repr

/-- `key.flat()`: flatten one level of nesting. -/
def flatArgs (args : List QueryKeyArg) : List QueryKey :=
  args.flatMap fun a =>
    match a with
    | .scalar k => [k]
    | .arr ks => ks

/-- String comparison as JS performs it: lexicographic on the character
sequences (the comparison of Lean's `String` order, stated on `toList` so it
is structurally computable). -/
def strLe (s t : String) : Prop := s.toList ≤ t.toList

instance : DecidableRel strLe :=
  fun s t => (inferInstance : Decidable (s.toList ≤ t.toList))

instance : IsAntisymm String strLe :=
  ⟨fun _ _ h₁ h₂ => String.toList_inj.mp (le_antisymm h₁ h₂)⟩

/-- The ordering used by the default (comparator-less) `Array.prototype.sort`:
elements are compared by their string conversion. -/
def keyLe (a b : QueryKey) : Prop := strLe (parseKey a) (parseKey b)

instance : DecidableRel keyLe :=
  fun a b => (inferInstance : Decidable (strLe (parseKey a) (parseKey b)))

instance : IsTotal QueryKey keyLe :=
  ⟨fun a b => le_total (parseKey a).toList (parseKey b).toList⟩

instance : IsTrans QueryKey keyLe := ⟨fun _ _ _ h₁ h₂ => le_trans h₁ h₂⟩

/-- Model of `getRealQueryKey`: an array input is flattened one level, sorted
with the default string-comparison sort, and the stringified elements are
concatenated with no delimiter (`res += parseKey(k)`); a scalar input is just
stringified. -/
def getRealQueryKey : QueryKeyInput → String
  | .single k => parseKey k
  | .list args => String.join ((List.insertionSort keyLe (flatArgs args)).map parseKey)

/-! ### JSON serialization (`JSON.stringify` / `JSON.parse`) -/

/-- A JSON value, restricted to the scalar forms the cache claims exercise. -/
inductive JsonValue where
  | null
  | bool (b : Bool)
  | num (n : Int)
  | str (s : String)
deriving DecidableEq, Repr

/-- Model of `JSON.stringify` on a defined value. String escaping is not
modelled; whether a value is serializable in this fragment is captured by
`jsonRoundTrips`. -/
def stringifyJson : JsonValue → String
  | .null => "null"
  | .bool true => "true"
  | .bool false => "false"
  | .num n => toString n
  | .str s => "\"" ++ s ++ "\""

/-- Digits of a decimal literal to the natural number they denote. -/
def digitsToNat (cs : List Char) : Nat :=
  cs.foldl (fun a c => a * 10 + (c.toNat - 48)) 0

/-- Parse an optionally-signed decimal integer literal. -/
def parseIntString (s : String) : Option Int :=
  match s.toList with
  | [] => none
  | '-' :: rest =>
    if rest ≠ [] ∧ rest.all (fun c => c.isDigit) then
      some (-(Int.ofNat (digitsToNat rest)))
    else none
  | cs =>
    if cs.all (fun c => c.isDigit) then some (Int.ofNat (digitsToNat cs)) else none

/-- Model of `JSON.parse` on the modelled fragment: `none` is a parse failure
(the thrown `SyntaxError`). -/
def parseJson (s : String) : Option JsonValue :=
  if s = "null" then some .null
  else if s = "true" then some (.bool true)
  else if s = "false" then some (.bool false)
  else
    match s.toList with
    | '"' :: rest =>
      match rest.getLast? with
      | some '"' =>
        if '"' ∈ rest.dropLast then none
        else if rest = [] then none
        else some (.str ⟨rest.dropLast⟩)
      | _ => none
    | _ => (parseIntString s).map .num

/-- The value `v` is JSON-serializable in the modelled fragment: serializing
and re-parsing it returns exactly `v`. -/
def jsonRoundTrips (v : JsonValue) : Prop := parseJson (stringifyJson v) = some v

instance : DecidablePred jsonRoundTrips :=
  fun _ => (inferInstance : Decidable (_ = _))

/-- `JSON.stringify` of a possibly-undefined value: `undefined` serializes to
`undefined`, i.e. no string at all. -/
def stringifyJsonOpt : Option JsonValue → Option String
  | none => none
  | some v => some (stringifyJson v)

/-! ### Cache store (`src/client/index.ts`) -/

/-- One entry of the cache map: `{ jsonData, timestamp }`. `jsonData` is an
`Option` because `JSON.stringify(undefined)` is `undefined`. -/
structure CacheEntry where
  jsonData : Option String
  timestamp : Int
deriving DecidableEq, Repr

/-- Insert-or-replace with JS object semantics: an existing key keeps its
position and receives the new value; a new key is appended. -/
def insertAssoc {α : Type} : List (String × α) → String → α → List (String × α)
  | [], k, v => [(k, v)]
  | (k', v') :: t, k, v =>
    if k' = k then (k, v) :: t else (k', v') :: insertAssoc t k v

/-- JS `delete obj[k]`: drop the binding for `k`. -/
def removeAssoc {α : Type} : List (String × α) → String → List (String × α)
  | [], _ => []
  | (k', v') :: t, k =>
    if k' = k then removeAssoc t k else (k', v') :: removeAssoc t k

/-- JS `obj[k]`: the binding for `k`, if any. -/
def lookupAssoc {α : Type} : List (String × α) → String → Option α
  | [], _ => none
  | (k', v) :: t, k => if k' = k then some v else lookupAssoc t k

/-- The query client state: cache entries, per-key GC durations, and the
store-wide defaults. -/
structure CacheState where
  cache : List (String × CacheEntry)
  gcConf : List (String × Int)
  defaultGcTime : Int
  defaultStaleTime : Int
deriving DecidableEq, Repr

/-- Model of the `minGcTime` getter: start from `defaultGcTime` and, for each
key present in the cache, lower the running minimum by that key's configured
GC duration when it is positive and strictly smaller (`gcConf[key]` absent
means `undefined > 0` is false, so it never lowers the minimum). -/
def minGcTime (s : CacheState) : Int :=
  s.cache.foldl
    (fun minTime p =>
      match lookupAssoc s.gcConf p.1 with
      | some gcTime => if 0 < gcTime ∧ gcTime < minTime then gcTime else minTime
      | none => minTime)
    s.defaultGcTime

/-- Model of `removeCache`: delete the normalized key from both the cache map
and the GC-config map. -/
def removeCache (s : CacheState) (key : QueryKeyInput) : CacheState :=
  { s with
    cache := removeAssoc s.cache (getRealQueryKey key)
    gcConf := removeAssoc s.gcConf (getRealQueryKey key) }

/-- Model of `getCache` at clock time `now`. Returns the value handed to the
caller (`none` is JS `null`) together with the updated state; the only
mutation is the self-healing `removeCache` when the stored string fails to
parse. The function is total: a corrupted entry yields `null`, never an
error. -/
def getCache (s : CacheState) (now : Int) (key : QueryKeyInput)
    (staleTime : Option Int) : Option JsonValue × CacheState :=
  let realStaleTime := staleTime.getD s.defaultStaleTime
  if realStaleTime = 0 then (none, s)
  else
    let realKey := getRealQueryKey key
    match lookupAssoc s.cache realKey with
    | none => (none, s)
    | some value =>
      match value.jsonData with
      | none => (none, s)
      | some jsonData =>
        if jsonData = "" then (none, s)
        else if now - value.timestamp > realStaleTime ∧ realStaleTime > 0 then
          (none, s)
        else
          match parseJson jsonData with
          | some v => (some v, s)
          | none => (none, removeCache s (.single (.str realKey)))

/-- Model of `setCache` at clock time `now`: store the serialized value under
the normalized key with the supplied timestamp, defaulting to `now`. -/
def setCache (s : CacheState) (now : Int) (key : QueryKeyInput)
    (value : Option JsonValue) (timestamp : Option Int) : CacheState :=
  { s with
    cache := insertAssoc s.cache (getRealQueryKey key)
      ⟨stringifyJsonOpt value, timestamp.getD now⟩ }

/-- The removal test of one `gc()` loop iteration, evaluated against the
`gcConf` snapshot captured at the start of the sweep: `gcConf[key]` must exist
(`undefined > 0` is false), be positive, and be exceeded by the entry's age. -/
def gcExpired (gcConf : List (String × Int)) (now : Int) (k : String)
    (e : CacheEntry) : Bool :=
  match lookupAssoc gcConf k with
  | some gcTime => decide (gcTime > 0 ∧ now - e.timestamp > gcTime)
  | none => false

/-- Model of `gc()` at clock time `now`: iterate over the snapshot of the
cache entries taken at entry to the sweep (the JS loop captures `cache` and
`gcConf` in locals before removing), applying `removeCache` to the evolving
state for each expired entry. -/
def gc (s : CacheState) (now : Int) : CacheState :=
  s.cache.foldl
    (fun acc p =>
      if gcExpired s.gcConf now p.1 p.2 then removeCache acc (.single (.str p.1))
      else acc)
    s

/-! ### Query instance (`src/hooks/create-query.ts`) -/

/-- The per-instance reactive flags and bookkeeping of `createQuery`. -/
structure QueryState where
  latestFetchId : Int
  data : Option JsonValue
  isLoading : Bool
  isError : Bool
  isInitialized : Bool
deriving DecidableEq, Repr

/-- Model of `performFetch`. `fetchFn attempt` is the outcome of the
`attempt`-th invocation of the caller's `queryFn`. The returned `Nat` counts
the `queryFn` invocations made and the returned `Bool` records whether the
final error was rethrown. The surrounding reactive system is quiescent during
the run: `realKey()` stays `currentKey`, `latestFetchId` is only read by this
chain, and the owning scope is not disposed (`isCleanedUp` is false). -/
def performFetch (fetchFn : Nat → Except Unit JsonValue) (id : Int)
    (tempKey currentKey : String) (now : Int) (attempt maxRetry : Nat)
    (qs : QueryState) (cs : CacheState) : QueryState × CacheState × Nat × Bool :=
  match fetchFn attempt with
  | .ok result =>
    if qs.latestFetchId ≠ id then (qs, cs, 1, false)
    else
      let qs₁ :=
        if tempKey = currentKey then
          { qs with data := some result, isInitialized := true }
        else qs
      let qs₂ := { qs₁ with isError := false }
      (qs₂, setCache cs now (.single (.str tempKey)) (some result) none, 1, false)
  | .error _ =>
    if qs.latestFetchId ≠ id then (qs, cs, 1, false)
    else if h : attempt < maxRetry then
      let r := performFetch fetchFn id tempKey currentKey now (attempt + 1) maxRetry qs cs
      (r.1, r.2.1, r.2.2.1 + 1, r.2.2.2)
    else
      ({ qs with isError := true }, cs, 1, true)
termination_by maxRetry + 1 - attempt
decreasing_by omega

/-- Model of `refetch` at clock time `now`: a no-op while disabled; otherwise
set `isLoading`, allocate the generation id from the clock (`Date.now()`),
resolve `opts.retry ?? 2`, run `performFetch` from attempt 0 with
`tempKey = realKey()`, and finally clear `isLoading` if the id is still the
latest. -/
def refetch (fetchFn : Nat → Except Unit JsonValue) (now : Int) (enabled : Bool)
    (currentKey : String) (retry : Option Nat) (qs : QueryState)
    (cs : CacheState) : QueryState × CacheState × Nat × Bool :=
  if !enabled then (qs, cs, 0, false)
  else
    let qs₀ := { qs with isLoading := true, latestFetchId := now }
    let maxRetry := retry.getD 2
    let r := performFetch fetchFn now currentKey currentKey now 0 maxRetry qs₀ cs
    let qs₁ := if r.1.latestFetchId = now then { r.1 with isLoading := false } else r.1
    (qs₁, r.2.1, r.2.2.1, r.2.2.2)

/-! ### Spec-side readings (for refutations only)

These two definitions follow the words of the specification, not the source;
they exist to be compared with the source-derived `minGcTime` and `gc`. -/

/-- The spec's reading of `minGcTime`: the smallest positive per-key GC
duration currently configured, falling back to the store-wide default when
none is configured. -/
def specMinGcTime (s : CacheState) : Int :=
  match s.gcConf.filterMap (fun p => if 0 < p.2 then some p.2 else none) with
  | [] => s.defaultGcTime
  | g :: gs => gs.foldl min g

/-- The spec's reading of the GC duration resolution used by `gc()`: the
per-key config, falling back to the store-wide default when absent. -/
def specResolvedGcDuration (s : CacheState) (k : String) : Int :=
  (lookupAssoc s.gcConf k).getD s.defaultGcTime

/-! ### Helper lemmas -/

theorem flatArgs_perm_of_perm {a b : List QueryKeyArg} (h : a.Perm b) :
    (flatArgs a).Perm (flatArgs b) := by
  unfold flatArgs
  exact h.flatMap_right _

theorem sorted_map_parseKey (l : List QueryKey) :
    ((List.insertionSort keyLe l).map parseKey).Sorted strLe := by
  have hs : (List.insertionSort keyLe l).Sorted keyLe :=
    List.sorted_insertionSort keyLe l
  exact List.Pairwise.map parseKey (fun _ _ hk => hk) hs

theorem lookupAssoc_insertAssoc_self {α : Type} (l : List (String × α))
    (k : String) (v : α) : lookupAssoc (insertAssoc l k v) k = some v := by
  induction l with
  | nil => simp [insertAssoc, lookupAssoc]
  | cons p t ih =>
    obtain ⟨k', v'⟩ := p
    by_cases hk : k' = k
    · simp [insertAssoc, hk, lookupAssoc]
    · simp [insertAssoc, hk, lookupAssoc, ih]

theorem lookupAssoc_removeAssoc_self {α : Type} (l : List (String × α))
    (k : String) : lookupAssoc (removeAssoc l k) k = none := by
  induction l with
  | nil => rfl
  | cons p t ih =>
    obtain ⟨k', v'⟩ := p
    by_cases hk : k' = k
    · simp [removeAssoc, hk, ih]
    · simp [removeAssoc, hk, lookupAssoc, ih]

theorem lookupAssoc_removeAssoc_ne {α : Type} (l : List (String × α))
    {k' k : String} (h : k' ≠ k) :
    lookupAssoc (removeAssoc l k') k = lookupAssoc l k := by
  induction l with
  | nil => rfl
  | cons p t ih =>
    obtain ⟨k₀, v₀⟩ := p
    by_cases hk : k₀ = k'
    · subst hk
      simp [removeAssoc, lookupAssoc, h, ih]
    · simp [removeAssoc, hk, lookupAssoc, ih]

theorem parseJson_empty : parseJson "" = none := by decide

theorem stringifyJson_ne_empty_of_roundTrips {v : JsonValue}
    (h : jsonRoundTrips v) : stringifyJson v ≠ "" := by
  intro he
  unfold jsonRoundTrips at h
  rw [he, parseJson_empty] at h
  exact Option.noConfusion h

theorem getCache_after_setCache (s : CacheState) (now₀ now t st : Int)
    (k : QueryKeyInput) (v : JsonValue) (hv : stringifyJson v ≠ "") :
    (getCache (setCache s now₀ k (some v) (some t)) now k (some st)).1 =
      if st = 0 then none
      else if now - t > st ∧ st > 0 then none
      else parseJson (stringifyJson v) := by
  unfold getCache setCache
  by_cases h0 : st = 0
  · simp [h0]
  · simp only [Option.getD_some, h0, if_false, stringifyJsonOpt]
    rw [lookupAssoc_insertAssoc_self]
    simp only [if_neg hv]
    by_cases hstale : now - t > st ∧ st > 0
    · simp [hstale]
    · simp only [hstale, if_false]
      cases hp : parseJson (stringifyJson v) <;> simp [hp]

theorem gc_foldl_lookup (conf : List (String × Int)) (now : Int)
    (l : List (String × CacheEntry)) (s₀ : CacheState) (k : String) :
    lookupAssoc
        (l.foldl (fun acc p =>
          if gcExpired conf now p.1 p.2 then removeCache acc (.single (.str p.1))
          else acc) s₀).cache k =
      if l.any (fun p => gcExpired conf now p.1 p.2 && decide (p.1 = k)) then none
      else lookupAssoc s₀.cache k := by
  induction l generalizing s₀ with
  | nil => simp
  | cons p t ih =>
    obtain ⟨k', e'⟩ := p
    simp only [List.foldl_cons, List.any_cons]
    rw [ih]
    simp only [Bool.or_eq_true, Bool.and_eq_true, decide_eq_true_eq]
    by_cases hc : gcExpired conf now k' e' = true
    · rw [if_pos hc]
      simp only [removeCache, getRealQueryKey, parseKey]
      by_cases hk : k' = k
      · subst hk
        rw [lookupAssoc_removeAssoc_self]
        rw [if_pos (Or.inl ⟨hc, rfl⟩)]
        exact ite_self none
      · rw [lookupAssoc_removeAssoc_ne _ hk]
        have hcond :
            (gcExpired conf now k' e' = true ∧ k' = k ∨
              (t.any fun p => gcExpired conf now p.1 p.2 && decide (p.1 = k)) = true) ↔
            ((t.any fun p => gcExpired conf now p.1 p.2 && decide (p.1 = k)) = true) :=
          ⟨fun h => h.elim (fun hx => absurd hx.2 hk) id, Or.inr⟩
        rw [if_congr hcond rfl rfl]
    · rw [if_neg hc]
      have hcond :
          (gcExpired conf now k' e' = true ∧ k' = k ∨
            (t.any fun p => gcExpired conf now p.1 p.2 && decide (p.1 = k)) = true) ↔
          ((t.any fun p => gcExpired conf now p.1 p.2 && decide (p.1 = k)) = true) :=
        ⟨fun h => h.elim (fun hx => absurd hx.1 hc) id, Or.inr⟩
      rw [if_congr hcond rfl rfl]

theorem any_expired_lookup (conf : List (String × Int)) (now : Int)
    (l : List (String × CacheEntry)) (k : String)
    (hnd : (l.map Prod.fst).Nodup) :
    (l.any fun p => gcExpired conf now p.1 p.2 && decide (p.1 = k)) =
      (match lookupAssoc l k with
       | some e => gcExpired conf now k e
       | none => false) := by
  induction l with
  | nil => rfl
  | cons p t ih =>
    obtain ⟨k', e'⟩ := p
    simp only [List.map_cons, List.nodup_cons] at hnd
    by_cases hk : k' = k
    · subst hk
      have ht : (t.any fun p => gcExpired conf now p.1 p.2 && decide (p.1 = k')) = false := by
        rw [List.any_eq_false]
        intro p hp
        have hp1 : p.1 ≠ k' := fun he =>
          hnd.1 (he ▸ List.mem_map_of_mem Prod.fst hp)
        simp [hp1]
      simp [lookupAssoc, ht]
    · simp [lookupAssoc, hk, ih hnd.2]

theorem minGcTime_eq_foldl_min (conf : List (String × Int))
    (l : List (String × CacheEntry)) :
    ∀ m : Int,
      l.foldl (fun minTime p =>
        match lookupAssoc conf p.1 with
        | some gcTime => if 0 < gcTime ∧ gcTime < minTime then gcTime else minTime
        | none => minTime) m =
      (l.filterMap fun p =>
        match lookupAssoc conf p.1 with
        | some gcTime => if 0 < gcTime then some gcTime else none
        | none => none).foldl min m := by
  induction l with
  | nil => intro m; rfl
  | cons p t ih =>
    intro m
    obtain ⟨k', e'⟩ := p
    simp only [List.foldl_cons, List.filterMap_cons]
    cases hg : lookupAssoc conf k' with
    | none => simp [hg, ih]
    | some g =>
      by_cases hp : 0 < g
      · by_cases hlt : g < m
        · have hmin : min m g = g := min_eq_right (le_of_lt hlt)
          simp [hg, hp, hlt, hmin, ih]
        · have hmin : min m g = m := min_eq_left (le_of_not_lt hlt)
          simp [hg, hp, hlt, hmin, ih]
      · simp [hg, hp, ih]

theorem performFetch_latestFetchId (fetchFn : Nat → Except Unit JsonValue)
    (id : Int) (tempKey currentKey : String) (now : Int) (attempt maxRetry : Nat)
    (qs : QueryState) (cs : CacheState) :
    ((performFetch fetchFn id tempKey currentKey now attempt maxRetry qs cs).1).latestFetchId =
      qs.latestFetchId := by
  induction attempt, maxRetry, qs, cs using performFetch.induct fetchFn id tempKey currentKey now
  all_goals rw [performFetch.eq_def]
  all_goals simp_all
  all_goals split <;> simp_all
  all_goals omega

theorem refetch_latestFetchId (f : Nat → Except Unit JsonValue) (now : Int)
    (k : String) (r : Option Nat) (qs : QueryState) (cs : CacheState) :
    (refetch f now true k r qs cs).1.latestFetchId = now := by
  unfold refetch
  have hp := performFetch_latestFetchId f now k k now 0 (r.getD 2)
    { qs with isLoading := true, latestFetchId := now } cs
  simp only [] at hp
  simp only [Bool.not_true]
  split
  · simp_all
  · simp [hp]

/-! ### Claim theorems -/

/-- C3 counterexample: the claim asserts `normalize(['a','b'])` and
`normalize(['ab'])` are distinct, but `getRealQueryKey` joins the sorted
flattened elements with no delimiter, so both normalize to the same string
`"ab"`. -/
theorem c3_counterexample :
    getRealQueryKey (.list [.scalar (.str "a"), .scalar (.str "b")]) =
      getRealQueryKey (.list [.scalar (.str "ab")]) := by decide

/-- C3 amended: the join strategy concatenates the sorted flattened elements
with no delimiter, so distinct-but-similar inputs can collide; in particular
`normalize(['a','b'])` and `normalize(['ab'])` both produce the canonical
string `"ab"`. -/
theorem c3_amended :
    getRealQueryKey (.list [.scalar (.str "a"), .scalar (.str "b")]) = "ab" ∧
      getRealQueryKey (.list [.scalar (.str "ab")]) = "ab" := by decide

/-- C4: key normalization is deterministic (it is a pure function of its
input), order-independent — permuting the argument array leaves the canonical
string unchanged — and transparent to one-level flattening:
`normalize([[x,y],z]) = normalize([x,y,z])`. -/
theorem c4_normalize_perm_invariant (a b : List QueryKeyArg) (h : a.Perm b)
    (x y z : QueryKey) :
    getRealQueryKey (.list a) = getRealQueryKey (.list b) ∧
      getRealQueryKey (.list [.arr [x, y], .scalar z]) =
        getRealQueryKey (.list [.scalar x, .scalar y, .scalar z]) := by
  constructor
  · have hperm : (flatArgs a).Perm (flatArgs b) := flatArgs_perm_of_perm h
    have hmap :
        (((List.insertionSort keyLe (flatArgs a)).map parseKey)).Perm
          ((List.insertionSort keyLe (flatArgs b)).map parseKey) :=
      (((List.perm_insertionSort keyLe _).trans hperm).trans
        (List.perm_insertionSort keyLe _).symm).map parseKey
    have heq :=
      List.eq_of_perm_of_sorted hmap (sorted_map_parseKey _) (sorted_map_parseKey _)
    simpa [getRealQueryKey] using congrArg String.join heq
  · simp [getRealQueryKey, flatArgs]

/-- C4 witness: the permutation hypothesis holds for the concrete pair
`['a','b']` and `['b','a']`, and the theorem applies. -/
theorem c4_witness :
    ([QueryKeyArg.scalar (.str "a"), QueryKeyArg.scalar (.str "b")].Perm
        [QueryKeyArg.scalar (.str "b"), QueryKeyArg.scalar (.str "a")]) ∧
      (getRealQueryKey (.list [.scalar (.str "a"), .scalar (.str "b")]) =
          getRealQueryKey (.list [.scalar (.str "b"), .scalar (.str "a")]) ∧
        getRealQueryKey (.list [.arr [.str "x", .str "y"], .scalar (.str "z")]) =
          getRealQueryKey
            (.list [.scalar (.str "x"), .scalar (.str "y"), .scalar (.str "z")])) :=
  ⟨List.Perm.swap _ _ _,
    c4_normalize_perm_invariant _ _ (List.Perm.swap _ _ _) _ _ _⟩

/-- C10: `setCache` with `undefined` stores an entry for the key whose
serialized payload is absent (`JSON.stringify(undefined)` is not a string),
and every subsequent `getCache` — with any stale time, including a negative
one — returns null and leaves the store unchanged: the entry is treated as
absent without being removed. -/
theorem c10_setCache_undefined (s : CacheState) (now now' : Int)
    (k : QueryKeyInput) (ts st : Option Int) :
    lookupAssoc ((setCache s now k none ts).cache) (getRealQueryKey k) =
        some ⟨none, ts.getD now⟩ ∧
      getCache (setCache s now k none ts) now' k st =
        (none, setCache s now k none ts) := by
  constructor
  · exact lookupAssoc_insertAssoc_self _ _ _
  · unfold getCache
    by_cases h0 : st.getD (setCache s now k none ts).defaultStaleTime = 0
    · simp [h0]
    · simp only [h0, if_false]
      rw [show (setCache s now k none ts).cache =
        insertAssoc s.cache (getRealQueryKey k) ⟨stringifyJsonOpt none, ts.getD now⟩ from rfl]
      rw [lookupAssoc_insertAssoc_self]
      simp [stringifyJsonOpt]

/-- C5 amended: after `setCache(k, v, t)` with a serializable value `v`,
`getCache(k, staleTime)` at time `now` returns `v` iff the stale time is not
exactly 0 and (`now - t <= staleTime` or `staleTime < 0`); stale time 0 always
yields null. -/
theorem c5_amended (s : CacheState) (now₀ now t st : Int) (k : QueryKeyInput)
    (v : JsonValue) (hv : jsonRoundTrips v) :
    ((getCache (setCache s now₀ k (some v) (some t)) now k (some st)).1 = some v) ↔
      (st ≠ 0 ∧ (now - t ≤ st ∨ st < 0)) := by
  rw [getCache_after_setCache s now₀ now t st k v (stringifyJson_ne_empty_of_roundTrips hv)]
  unfold jsonRoundTrips at hv
  by_cases h0 : st = 0
  · simp [h0]
  · by_cases hstale : now - t > st ∧ st > 0
    · simp only [h0, if_false, hstale, if_true]
      constructor
      · intro hcon
        exact Option.noConfusion hcon
      · intro hr
        exfalso
        rcases hr with ⟨-, hr⟩
        omega
    · simp only [h0, if_false, hstale, if_false, hv, Option.some.injEq]
      constructor
      · intro _
        exact ⟨h0, by omega⟩
      · intro _
        trivial

/-- C5 witness: the amended equivalence applied at a concrete serializable
value with a fresh read. -/
theorem c5_witness :
    jsonRoundTrips (JsonValue.str "v") ∧
      (((getCache (setCache ⟨[], [], 480000, 0⟩ 0 (.single (.str "k"))
              (some (.str "v")) (some 5)) 10 (.single (.str "k")) (some 100)).1 =
            some (JsonValue.str "v")) ↔
          ((100 : Int) ≠ 0 ∧ ((10 : Int) - 5 ≤ 100 ∨ (100 : Int) < 0))) :=
  ⟨by decide, c5_amended _ _ _ _ _ _ _ (by decide)⟩

/-- C5 counterexample: at stale time exactly 0 the claimed equivalence fails —
after `setCache(k, v, 5)`, `getCache(k, 0)` at `now = 5` returns null although
`now - t ≤ staleTime` holds. -/
theorem c5_counterexample :
    ¬(((getCache (setCache ⟨[], [], 480000, 0⟩ 0 (.single (.str "k"))
            (some (.str "v")) (some 5)) 5 (.single (.str "k")) (some 0)).1 =
          some (JsonValue.str "v")) ↔
        ((5 : Int) - 5 ≤ 0 ∨ (0 : Int) < 0)) := by decide

/-- C6: when `getCache` reaches deserialization (entry present with a stored
string, resolved stale time nonzero, not filtered as stale) and the stored
string fails to parse, it returns null and removes the entry as a side
effect: the corruption is healed silently — `getCache` stays a total function
returning null rather than an error — and the entry is subsequently absent
from the store. -/
theorem c6_corrupt_selfheal (s : CacheState) (now st : Int) (k : QueryKeyInput)
    (e : CacheEntry) (jd : String)
    (hlook : lookupAssoc s.cache (getRealQueryKey k) = some e)
    (hjd : e.jsonData = some jd) (hne : jd ≠ "") (h0 : st ≠ 0)
    (hfresh : ¬(now - e.timestamp > st ∧ st > 0))
    (hparse : parseJson jd = none) :
    (getCache s now k (some st)).1 = none ∧
      lookupAssoc ((getCache s now k (some st)).2).cache (getRealQueryKey k) =
        none := by
  unfold getCache
  simp only [Option.getD_some, h0, if_false, hlook, hjd, hne, hfresh, hparse,
    if_neg, ite_false]
  exact ⟨trivial, lookupAssoc_removeAssoc_self _ _⟩

/-- C6 witness: a concrete corrupted entry is healed by a read. -/
theorem c6_witness :
    lookupAssoc ([("corrupted", (⟨some "invalid", 0⟩ : CacheEntry))])
        (getRealQueryKey (.single (.str "corrupted"))) =
        some (⟨some "invalid", 0⟩ : CacheEntry) ∧
      (⟨some "invalid", 0⟩ : CacheEntry).jsonData = some "invalid" ∧
      "invalid" ≠ "" ∧ (-1 : Int) ≠ 0 ∧
      ¬((0 : Int) - (⟨some "invalid", 0⟩ : CacheEntry).timestamp > -1 ∧
          (-1 : Int) > 0) ∧
      parseJson "invalid" = none ∧
      ((getCache ⟨[("corrupted", ⟨some "invalid", 0⟩)], [], 480000, 0⟩ 0
            (.single (.str "corrupted")) (some (-1))).1 = none ∧
        lookupAssoc
            ((getCache ⟨[("corrupted", ⟨some "invalid", 0⟩)], [], 480000, 0⟩ 0
                (.single (.str "corrupted")) (some (-1))).2).cache
            (getRealQueryKey (.single (.str "corrupted"))) = none) :=
  ⟨by decide, by decide, by decide, by decide, by decide, by decide,
    c6_corrupt_selfheal ⟨[("corrupted", ⟨some "invalid", 0⟩)], [], 480000, 0⟩ 0
      (-1) (.single (.str "corrupted")) ⟨some "invalid", 0⟩ "invalid"
      (by decide) (by decide) (by decide) (by decide) (by decide) (by decide)⟩

/-- C7 amended: `gc()` resolves the GC duration from the per-key config only —
there is no fallback to the store-wide default — and removes exactly the
entries whose configured duration is positive and exceeded by their age
(`now - timestamp > gcConf[key]`); every other entry, including every entry
with no per-key config, is left untouched. -/
theorem c7_amended (s : CacheState) (now : Int) (k : String)
    (hnd : (s.cache.map Prod.fst).Nodup) :
    lookupAssoc (gc s now).cache k =
      match lookupAssoc s.cache k with
      | some e => if gcExpired s.gcConf now k e then none else some e
      | none => none := by
  unfold gc
  rw [gc_foldl_lookup, any_expired_lookup s.gcConf now s.cache k hnd]
  cases hl : lookupAssoc s.cache k with
  | none => simp
  | some e => by_cases hc : gcExpired s.gcConf now k e <;> simp [hc]

/-- C7 witness: the amended characterization applied to a store holding one
expired and one fresh entry, both with per-key configs. -/
theorem c7_witness :
    ((([("old", (⟨some "x", 0⟩ : CacheEntry)), ("fresh", ⟨some "x", 95⟩)] :
        List (String × CacheEntry)).map Prod.fst).Nodup) ∧
      lookupAssoc
          (gc ⟨[("old", ⟨some "x", 0⟩), ("fresh", ⟨some "x", 95⟩)],
              [("old", 50), ("fresh", 100)], 10, 0⟩ 100).cache "old" =
        match
          lookupAssoc
            (⟨[("old", ⟨some "x", 0⟩), ("fresh", ⟨some "x", 95⟩)],
                [("old", 50), ("fresh", 100)], 10, 0⟩ : CacheState).cache "old"
        with
        | some e =>
          if gcExpired [("old", 50), ("fresh", 100)] 100 "old" e then none
          else some e
        | none => none :=
  ⟨by decide,
    c7_amended
      ⟨[("old", ⟨some "x", 0⟩), ("fresh", ⟨some "x", 95⟩)],
        [("old", 50), ("fresh", 100)], 10, 0⟩ 100 "old" (by decide)⟩

/-- C7 counterexample: an entry with no per-key GC config is never removed by
`gc()`, even when its age exceeds the positive store-wide default — the
claimed fallback to the default does not happen. -/
theorem c7_counterexample :
    specResolvedGcDuration ⟨[("k", ⟨some "x", 0⟩)], [], 10, 0⟩ "k" = 10 ∧
      (0 : Int) < 10 ∧ (100 : Int) - 0 > 10 ∧
      lookupAssoc ((gc ⟨[("k", ⟨some "x", 0⟩)], [], 10, 0⟩ 100).cache) "k" ≠
        none := by decide

/-- C9 amended: `minGcTime` equals the minimum of the store-wide default GC
time and all positive per-key GC durations configured for keys currently
present in the cache; a per-key duration not smaller than the default, or
configured for a key absent from the cache, does not affect the result. -/
theorem c9_amended (s : CacheState) :
    minGcTime s =
      (s.cache.filterMap fun p =>
        match lookupAssoc s.gcConf p.1 with
        | some gcTime => if 0 < gcTime then some gcTime else none
        | none => none).foldl min s.defaultGcTime := by
  unfold minGcTime
  exact minGcTime_eq_foldl_min s.gcConf s.cache s.defaultGcTime

/-- C9 counterexample: with default 100 and a single cached key configured at
200, the smallest positive per-key duration configured is 200, yet `minGcTime`
is 100 — the getter never rises above the default, so it is not "the smallest
positive per-key GC duration currently configured". -/
theorem c9_counterexample :
    minGcTime ⟨[("k", ⟨some "x", 0⟩)], [("k", 200)], 100, 0⟩ = 100 ∧
      specMinGcTime ⟨[("k", ⟨some "x", 0⟩)], [("k", 200)], 100, 0⟩ = 200 ∧
      minGcTime ⟨[("k", ⟨some "x", 0⟩)], [("k", 200)], 100, 0⟩ ≠
        specMinGcTime ⟨[("k", ⟨some "x", 0⟩)], [("k", 200)], 100, 0⟩ := by
  decide

/-- C1 counterexample: a successful fetch whose generation id (1) is no longer
the latest (the instance's `latestFetchId` is 2) writes nothing to the cache
store — the key it started under is absent afterwards — contradicting the
claim that a superseded result is still written under its starting key. -/
theorem c1_counterexample :
    lookupAssoc
        ((performFetch (fun _ => .ok (.str "v")) 1 "a" "b" 0 0 0
            ⟨2, none, true, false, false⟩ ⟨[], [], 480000, 0⟩).2.1).cache "a" =
      none := by
  rw [performFetch.eq_def]
  simp [lookupAssoc]

/-- C1 amended: on fetch success the cache write is guarded by the generation
id — a superseded fetch (id no longer the latest) changes nothing at all,
neither instance state nor cache store; a fetch whose id is still the latest
writes the result under the key that was active when the fetch started
(`tempKey`) even when that key has since changed, in which case the result is
not adopted into the instance's `data`. -/
theorem c1_amended (fetchFn : Nat → Except Unit JsonValue) (v : JsonValue)
    (id : Int) (tempKey currentKey : String) (now : Int) (maxRetry : Nat)
    (qs : QueryState) (cs : CacheState) (hfetch : fetchFn 0 = .ok v) :
    (qs.latestFetchId ≠ id →
      performFetch fetchFn id tempKey currentKey now 0 maxRetry qs cs =
        (qs, cs, 1, false)) ∧
      (qs.latestFetchId = id →
        lookupAssoc
            ((performFetch fetchFn id tempKey currentKey now 0 maxRetry qs cs).2.1).cache
            tempKey = some ⟨some (stringifyJson v), now⟩ ∧
          (tempKey ≠ currentKey →
            ((performFetch fetchFn id tempKey currentKey now 0 maxRetry qs cs).1).data =
              qs.data)) := by
  constructor
  · intro h
    rw [performFetch.eq_def]
    simp [hfetch, h]
  · intro h
    rw [performFetch.eq_def]
    simp only [hfetch, h, ne_eq, not_true_eq_false, if_false, ite_false]
    constructor
    · simp [setCache, getRealQueryKey, parseKey, stringifyJsonOpt,
        lookupAssoc_insertAssoc_self]
    · intro hne
      simp [hne]

/-- C1 witness: the amended statement at a concrete live fetch (id 7 still
latest) whose key `"a"` is no longer the current key `"b"`. -/
theorem c1_witness :
    ((fun _ : Nat => (Except.ok (JsonValue.str "v") : Except Unit JsonValue)) 0 =
        Except.ok (JsonValue.str "v")) ∧
      (((⟨7, none, false, false, false⟩ : QueryState).latestFetchId ≠ 7 →
          performFetch (fun _ => .ok (.str "v")) 7 "a" "b" 3 0 0
              ⟨7, none, false, false, false⟩ ⟨[], [], 480000, 0⟩ =
            (⟨7, none, false, false, false⟩, ⟨[], [], 480000, 0⟩, 1, false)) ∧
        ((⟨7, none, false, false, false⟩ : QueryState).latestFetchId = 7 →
          lookupAssoc
              ((performFetch (fun _ => .ok (.str "v")) 7 "a" "b" 3 0 0
                  ⟨7, none, false, false, false⟩ ⟨[], [], 480000, 0⟩).2.1).cache
              "a" = some ⟨some (stringifyJson (.str "v")), 3⟩ ∧
            ("a" ≠ "b" →
              ((performFetch (fun _ => .ok (.str "v")) 7 "a" "b" 3 0 0
                  ⟨7, none, false, false, false⟩ ⟨[], [], 480000, 0⟩).1).data =
                (⟨7, none, false, false, false⟩ : QueryState).data))) :=
  ⟨rfl, c1_amended _ _ _ _ _ _ _ _ _ rfl⟩

/-- C2 counterexample: the generation id allocated by `refetch` is the clock
reading (`Date.now()`), not a counter — two refetch calls in the same
millisecond (`now = 5`) allocate equal ids, so the second one is not strictly
greater than the first. -/
theorem c2_counterexample :
    ¬(let r₁ := refetch (fun _ => .ok (.str "v")) 5 true "k" (some 0)
        ⟨0, none, false, false, false⟩ ⟨[], [], 480000, 0⟩
      let r₂ := refetch (fun _ => .ok (.str "v")) 5 true "k" (some 0) r₁.1 r₁.2.1
      r₁.1.latestFetchId < r₂.1.latestFetchId) := by
  simp [refetch, performFetch]

/-- C2 amended: `refetch` sets the generation id to the clock reading, so ids
strictly increase across calls whose clock readings strictly increase (calls
within the same millisecond share an id); and a fetch outcome — success or
error — is applied to instance state only when its generation id equals the
instance's latest id at completion: a superseded `performFetch` returns with
instance state and cache store unchanged. -/
theorem c2_amended (f₁ f₂ g : Nat → Except Unit JsonValue) (now₁ now₂ : Int)
    (k₁ k₂ : String) (r₁ r₂ : Option Nat) (qs₀ : QueryState) (cs₀ cs₁ : CacheState)
    (qs : QueryState) (cs : CacheState) (id : Int) (tempKey currentKey : String)
    (now : Int) (attempt maxRetry : Nat)
    (hlt : now₁ < now₂) (hstale : qs.latestFetchId ≠ id) :
    ((refetch f₁ now₁ true k₁ r₁ qs₀ cs₀).1.latestFetchId <
        (refetch f₂ now₂ true k₂ r₂ (refetch f₁ now₁ true k₁ r₁ qs₀ cs₀).1
            cs₁).1.latestFetchId) ∧
      performFetch g id tempKey currentKey now attempt maxRetry qs cs =
        (qs, cs, 1, false) := by
  constructor
  · rw [refetch_latestFetchId, refetch_latestFetchId]
    exact hlt
  · rw [performFetch.eq_def]
    cases hg : g attempt <;> simp [hstale]

/-- C2 witness: the amended statement at two concrete clock readings 4 < 7 and
a concrete superseded completion (id 5, latest 9). -/
theorem c2_witness :
    (4 : Int) < 7 ∧
      (⟨9, none, false, false, false⟩ : QueryState).latestFetchId ≠ 5 ∧
      (((refetch (fun _ => .ok (.str "v")) 4 true "k" (some 0)
              ⟨0, none, false, false, false⟩ ⟨[], [], 480000, 0⟩).1.latestFetchId <
          (refetch (fun _ => .ok (.str "v")) 7 true "k" (some 0)
              ((refetch (fun _ => .ok (.str "v")) 4 true "k" (some 0)
                  ⟨0, none, false, false, false⟩ ⟨[], [], 480000, 0⟩).1)
              ⟨[], [], 480000, 0⟩).1.latestFetchId) ∧
        performFetch (fun _ => .ok (.str "v")) 5 "a" "b" 3 0 2
            ⟨9, none, false, false, false⟩ ⟨[], [], 480000, 0⟩ =
          (⟨9, none, false, false, false⟩, ⟨[], [], 480000, 0⟩, 1, false)) :=
  ⟨by decide, by decide,
    c2_amended (fun _ => .ok (.str "v")) (fun _ => .ok (.str "v"))
      (fun _ => .ok (.str "v")) 4 7 "k" "k" (some 0) (some 0)
      ⟨0, none, false, false, false⟩ ⟨[], [], 480000, 0⟩ ⟨[], [], 480000, 0⟩
      ⟨9, none, false, false, false⟩ ⟨[], [], 480000, 0⟩ 5 "a" "b" 3 0 2
      (by decide) (by decide)⟩

/-- C8: Scenario C — with `retry: 3` and a fetch function failing on attempts
0, 1 and 2 and succeeding on attempt 3, a refetch makes exactly 4 fetch
invocations, ends with `data` equal to the success value and `isError` false
(the initial state is arbitrary, so a prior error state flips back to false on
the successful fetch); and with a fetch function that always fails, the same
budget makes 4 invocations and ends with `isError` true — `isError` flips true
exactly at retry exhaustion. -/
theorem c8_retry_scenario (v : JsonValue) (qs : QueryState) (cs : CacheState)
    (now : Int) (k : String) :
    ((refetch (fun a => if a < 3 then .error () else .ok v) now true k (some 3)
          qs cs).2.2.1 = 4 ∧
      (refetch (fun a => if a < 3 then .error () else .ok v) now true k (some 3)
          qs cs).1.data = some v ∧
      (refetch (fun a => if a < 3 then .error () else .ok v) now true k (some 3)
          qs cs).1.isError = false) ∧
      ((refetch (fun _ => .error ()) now true k (some 3) qs cs).2.2.1 = 4 ∧
        (refetch (fun _ => .error ()) now true k (some 3) qs cs).1.isError =
          true) := by
  refine ⟨⟨?_, ?_, ?_⟩, ?_, ?_⟩ <;> simp [refetch, performFetch]

end SolidTinyQuery
